import Mathlib

/-!
Shallow embedding of the VideoForge composition planner
(`src/services/ffmpegService.ts`, first `FFmpegService` class) and of the
preview-frame fallback controller (`getPreviewFrame`).  Pure planning logic
(strategy selection, filter-graph synthesis, command assembly) is embedded as
executable Lean functions; the engine-facing run behaviour (exec / readFile /
deleteFile outcomes) is embedded as explicit outcome parameters.  Durations
and offsets (JS numbers) are modelled as rationals.
-/

namespace VideoForge

/-- `TransitionType` from `src/types.ts`: closed string enum of transition kinds. -/
inductive TransitionType
  | none
  | fade
  | wipeleft
  | wiperight
  | wipeup
  | wipedown
  | slidelt
  | slidert
  | slideup
  | slidedown
  | circlecrop
  | rectcrop
  | distance
  | fadeblack
  | fadewhite
  | radial
  | smoothleft
  | smoothright
  | pixelize
  | dissolve
  | circleopen
  | circleclose
  | zoomin
  | hlslice
  | hrslice
  | vuslice
  | vdslice
  | hblur
  | squeezeh
  | squeezev
  | diagonal
deriving DecidableEq, Repr

/-- The string value carried by each `TransitionType` enum member in
`src/types.ts` (e.g. `NONE = 'none'`, `SLIDELT = 'slidelt'`). -/
def TransitionType.str : TransitionType → String
  | .none => "none"
  | .fade => "fade"
  | .wipeleft => "wipeleft"
  | .wiperight => "wiperight"
  | .wipeup => "wipeup"
  | .wipedown => "wipedown"
  | .slidelt => "slidelt"
  | .slidert => "slidert"
  | .slideup => "slideup"
  | .slidedown => "slidedown"
  | .circlecrop => "circlecrop"
  | .rectcrop => "rectcrop"
  | .distance => "distance"
  | .fadeblack => "fadeblack"
  | .fadewhite => "fadewhite"
  | .radial => "radial"
  | .smoothleft => "smoothleft"
  | .smoothright => "smoothright"
  | .pixelize => "pixelize"
  | .dissolve => "dissolve"
  | .circleopen => "circleopen"
  | .circleclose => "circleclose"
  | .zoomin => "zoomin"
  | .hlslice => "hlslice"
  | .hrslice => "hrslice"
  | .vuslice => "vuslice"
  | .vdslice => "vdslice"
  | .hblur => "hblur"
  | .squeezeh => "squeezeh"
  | .squeezev => "squeezev"
  | .diagonal => "diagonal"

/-- The TypeScript identifier of each enum member (`NONE`, `FADE`, ...),
used to express that the enum value is the lowercased member name. -/
def TransitionType.enumName : TransitionType → String
  | .none => "NONE"
  | .fade => "FADE"
  | .wipeleft => "WIPELEFT"
  | .wiperight => "WIPERIGHT"
  | .wipeup => "WIPEUP"
  | .wipedown => "WIPEDOWN"
  | .slidelt => "SLIDELT"
  | .slidert => "SLIDERT"
  | .slideup => "SLIDEUP"
  | .slidedown => "SLIDEDOWN"
  | .circlecrop => "CIRCLECROP"
  | .rectcrop => "RECTCROP"
  | .distance => "DISTANCE"
  | .fadeblack => "FADEBLACK"
  | .fadewhite => "FADEWHITE"
  | .radial => "RADIAL"
  | .smoothleft => "SMOOTHLEFT"
  | .smoothright => "SMOOTHRIGHT"
  | .pixelize => "PIXELIZE"
  | .dissolve => "DISSOLVE"
  | .circleopen => "CIRCLEOPEN"
  | .circleclose => "CIRCLECLOSE"
  | .zoomin => "ZOOMIN"
  | .hlslice => "HLSLICE"
  | .hrslice => "HRSLICE"
  | .vuslice => "VUSLICE"
  | .vdslice => "VDSLICE"
  | .hblur => "HBLUR"
  | .squeezeh => "SQUEEZEH"
  | .squeezev => "SQUEEZEV"
  | .diagonal => "DIAGONAL"

/-- Character-wise lowercasing (executable counterpart of `toLowerCase`). -/
def lowerString (s : String) : String :=
  String.mk (s.data.map Char.toLower)

/-- The per-clip transition record `{ type, duration }` of `src/types.ts`. -/
structure Transition where
  type : TransitionType
  duration : ℚ
deriving DecidableEq, Repr

/-- `VideoFile` from `src/types.ts`.  The wrapped browser `File` is reduced to
the two fields the planner reads from it (`file.name`, `file.type`). -/
structure VideoFile where
  fileName : String
  fileType : String
  duration : ℚ
  width : Nat
  height : Nat
  transition : Option Transition
deriving DecidableEq, Repr

/-- Placeholder clip: reading `videos[0]` of an empty job is undefined in the
source; every theorem about a job supplies a nonempty list. -/
def defaultClip : VideoFile :=
  { fileName := "", fileType := "", duration := 0, width := 0, height := 0,
    transition := Option.none }

/-- `const first = videos[0]` (ffmpegService.ts:59). -/
def firstClip (videos : List VideoFile) : VideoFile :=
  videos.headD defaultClip

/-- `const targetW = first.width` (ffmpegService.ts:60). -/
def targetW (videos : List VideoFile) : Nat :=
  (firstClip videos).width

/-- `const targetH = first.height` (ffmpegService.ts:61). -/
def targetH (videos : List VideoFile) : Nat :=
  (firstClip videos).height

/-- `((first.file.name || '').split('.').pop() || 'mp4').toLowerCase()`
(ffmpegService.ts:62). -/
def jsExt (fileName : String) : String :=
  let last := (fileName.splitOn ".").getLastD ""
  (if last = "" then "mp4" else last).toLower

/-- The output/input extension derived from the first clip. -/
def extOf (videos : List VideoFile) : String :=
  jsExt (firstClip videos).fileName

/-- `const mime = first.file.type || 'video/mp4'` (ffmpegService.ts:63):
an empty mime string on the first clip is replaced by `video/mp4`. -/
def mimeOf (videos : List VideoFile) : String :=
  if (firstClip videos).fileType = "" then "video/mp4" else (firstClip videos).fileType

/-- `needsReencode` (ffmpegService.ts:66-70): some clip deviates from the first
clip's resolution or from the defaulted mime, or background audio is present. -/
def needsReencode (videos : List VideoFile) (bg : Bool) : Bool :=
  (videos.any fun v =>
    (v.width != targetW videos) || (v.height != targetH videos) ||
      (v.fileType != mimeOf videos)) || bg

/-- `hasTransitions` (ffmpegService.ts:96): some clip (the last one included)
carries a transition whose type is not `'none'`. -/
def hasTransitions (videos : List VideoFile) : Bool :=
  videos.any fun v =>
    match v.transition with
    | some t => t.type != TransitionType.none
    | Option.none => false

/-- The two branches of the `if` at ffmpegService.ts:98. -/
inductive EncodeStrategy
  | streamCopy
  | filterGraph
deriving DecidableEq, Repr

/-- `if (!needsReencode && !hasTransitions && !backgroundAudio)`
(ffmpegService.ts:98): fast stream-copy path versus robust filter-graph path. -/
def strategyOf (videos : List VideoFile) (bg : Bool) : EncodeStrategy :=
  if !needsReencode videos bg && !hasTransitions videos && !bg then
    EncodeStrategy.streamCopy
  else
    EncodeStrategy.filterGraph

/-- `input${i}.${ext}` (ffmpegService.ts:73). -/
def inputName (ext : String) (i : Nat) : String :=
  s!"input{i}.{ext}"

/-- The per-clip engine-side input file names (ffmpegService.ts:72-76). -/
def inputNames (videos : List VideoFile) : List String :=
  (List.range videos.length).map (inputName (extOf videos))

/-- `output.${ext}` (ffmpegService.ts:86). -/
def outputName (videos : List VideoFile) : String :=
  s!"output.{extOf videos}"

/-- `'background_audio.mp3'` when background audio is requested, else the empty
string (ffmpegService.ts:78-82). -/
def audioInputNameOf (bg : Bool) : String :=
  if bg then "background_audio.mp3" else ""

/-- `trans.type === 'slidelt' → 'slideleft'`, `'slidert' → 'slideright'`,
everything else unchanged (ffmpegService.ts:172-174). -/
def ffmpegTransName (t : TransitionType) : String :=
  let s0 := t.str
  let s1 := if s0 = "slidelt" then "slideleft" else s0
  if s1 = "slidert" then "slideright" else s1

/-- `const trans = v1.transition || { type: 'none', duration: 1 }`
(ffmpegService.ts:157). -/
def clipTrans (v : VideoFile) : Transition :=
  v.transition.getD { type := TransitionType.none, duration := 1 }

/-- `const transitionDuration = trans.type === 'none' ? 0 : trans.duration`
(ffmpegService.ts:160). -/
def clipTransitionDuration (v : VideoFile) : ℚ :=
  if (clipTrans v).type = TransitionType.none then 0 else (clipTrans v).duration

/-- One named stage of the synthesized `filter_complex` expression; each
constructor corresponds to one string fragment appended by the source. -/
inductive FilterStage
  | scalePad (i w h : Nat)
  | simpleConcatV (n : Nat)
  | simpleConcatA (n : Nat)
  | bgAudioNull (n : Nat)
  | concatV (cur : String) (i : Nat)
  | concatA (cur : String) (i : Nat)
  | xfade (cur : String) (i : Nat) (name : String) (dur offset : ℚ)
  | acrossfade (cur : String) (i : Nat) (dur : ℚ)
  | finalV (cur : String)
  | finalA (cur : String)
deriving DecidableEq, Repr

/-- `[v${i}]`. -/
def vLabel (i : Nat) : String :=
  s!"[v{i}]"

/-- `[${i}:a]`. -/
def aInLabel (i : Nat) : String :=
  s!"[{i}:a]"

/-- Serializes each stage to exactly the string fragment the source appends to
`filterComplex` (ffmpegService.ts:124,134-146,165-192). -/
def serializeStage : FilterStage → String
  | .scalePad i w h =>
      s!"[{i}:v]scale={w}:{h}:force_original_aspect_ratio=decrease,pad={w}:{h}:(ow-iw)/2:(oh-ih)/2,setsar=1,format=yuv420p[v{i}];"
  | .simpleConcatV n =>
      String.join ((List.range n).map vLabel) ++ s!"concat=n={n}:v=1:a=0[v];"
  | .simpleConcatA n =>
      String.join ((List.range n).map aInLabel) ++ s!"concat=n={n}:v=0:a=1[a]"
  | .bgAudioNull n => s!"[{n}:a]anull[a]"
  | .concatV cur i => s!"{cur}[v{i+1}]concat=n=2:v=1:a=0[vtemp{i}];"
  | .concatA cur i => s!"{cur}[{i+1}:a]concat=n=2:v=0:a=1[atemp{i}];"
  | .xfade cur i nm d o =>
      s!"{cur}[v{i+1}]xfade=transition={nm}:duration={d}:offset={o}[vtemp{i}];"
  | .acrossfade cur i d => s!"{cur}[{i+1}:a]acrossfade=d={d}[atemp{i}];"
  | .finalV cur => s!"{cur}null[v];"
  | .finalA cur => s!"{cur}anull[a]"

/-- Mutable state of the junction loop (ffmpegService.ts:150-187): the loop
counter `i`, the current video/audio buffer labels, the running offset, and
the stages appended so far. -/
structure JunctionState where
  idx : Nat
  currentV : String
  currentA : String
  currentOffset : ℚ
  stages : List FilterStage
deriving DecidableEq, Repr

/-- One iteration of the junction loop (ffmpegService.ts:154-187) over clip
`v1 = videos[i]`: either a plain 2-way concat (transition `'none'` or
non-positive duration) advancing `currentOffset` by `v1.duration`, or an
`xfade`/`acrossfade` pair at `offset = currentOffset + v1.duration -
transitionDuration`, setting `currentOffset` to that offset.  With background
audio, the audio stages and the `currentA` update are skipped. -/
def junctionStep (bg : Bool) (st : JunctionState) (v1 : VideoFile) : JunctionState :=
  let i := st.idx
  let trans := clipTrans v1
  let transitionDuration := clipTransitionDuration v1
  let offset : ℚ := st.currentOffset + v1.duration - transitionDuration
  if trans.type = TransitionType.none ∨ transitionDuration ≤ 0 then
    { idx := i + 1
      currentV := s!"[vtemp{i}]"
      currentA := if bg then st.currentA else s!"[atemp{i}]"
      currentOffset := st.currentOffset + v1.duration
      stages := st.stages ++ [FilterStage.concatV st.currentV i] ++
        (if bg then [] else [FilterStage.concatA st.currentA i]) }
  else
    { idx := i + 1
      currentV := s!"[vtemp{i}]"
      currentA := if bg then st.currentA else s!"[atemp{i}]"
      currentOffset := offset
      stages := st.stages ++
        [FilterStage.xfade st.currentV i (ffmpegTransName trans.type) transitionDuration offset] ++
        (if bg then [] else [FilterStage.acrossfade st.currentA i transitionDuration]) }

/-- Initial junction-loop state: `currentV = '[v0]'`, `currentA = '[0:a]'`,
`currentOffset = 0` (ffmpegService.ts:150-152). -/
def initialJunctionState : JunctionState :=
  { idx := 0, currentV := "[v0]", currentA := "[0:a]", currentOffset := 0, stages := [] }

/-- The junction loop `for (let i = 0; i < videos.length - 1; i++)`
(ffmpegService.ts:154): folds `junctionStep` over all clips but the last. -/
def runJunctions (videos : List VideoFile) (bg : Bool) : JunctionState :=
  videos.dropLast.foldl (junctionStep bg) initialJunctionState

/-- The per-clip scale/pad normalization stages (ffmpegService.ts:121-125). -/
def scaleStages (videos : List VideoFile) : List FilterStage :=
  (List.range videos.length).map fun i =>
    FilterStage.scalePad i (targetW videos) (targetH videos)

/-- The full robust-path stage list (ffmpegService.ts:117-194): normalization,
then either the simple n-way concat or the junction chain, then the final
`[v]`/`[a]` mappings; with background audio, exactly the single
`[n:a]anull[a]` stage supplies the output audio. -/
def filterStages (videos : List VideoFile) (bg : Bool) : List FilterStage :=
  let n := videos.length
  if hasTransitions videos then
    let st := runJunctions videos bg
    scaleStages videos ++ st.stages ++ [FilterStage.finalV st.currentV] ++
      (if bg then [FilterStage.bgAudioNull n] else [FilterStage.finalA st.currentA])
  else
    scaleStages videos ++ [FilterStage.simpleConcatV n] ++
      (if bg then [FilterStage.bgAudioNull n] else [FilterStage.simpleConcatA n])

/-- The serialized `filter_complex` string of the robust path. -/
def filterComplexOf (videos : List VideoFile) (bg : Bool) : String :=
  String.join ((filterStages videos bg).map serializeStage)

/-- The offsets of the emitted `xfade` stages, in emission order. -/
def stageOffset : FilterStage → Option ℚ
  | .xfade _ _ _ _ o => some o
  | _ => Option.none

/-- All cross-fade offsets emitted for a job. -/
def xfadeOffsets (videos : List VideoFile) (bg : Bool) : List ℚ :=
  (filterStages videos bg).filterMap stageOffset

/-- The concat-demuxer list file content of the fast path
(ffmpegService.ts:100-104): one `file 'inputN.ext'` line per clip. -/
def concatListOf (videos : List VideoFile) : String :=
  String.join ((inputNames videos).map fun nm => "file \x27" ++ nm ++ "\x27\n")

/-- The `-i` token pairs of the robust path (ffmpegService.ts:122,127-129). -/
def inputTokens (videos : List VideoFile) (bg : Bool) : List String :=
  List.flatten ((inputNames videos).map fun nm => ["-i", nm]) ++
    (if bg then ["-i", "background_audio.mp3"] else [])

/-- The assembled argument vector (ffmpegService.ts:106-112 fast path,
196-207 robust path), before the trailing `-y` added at exec time. -/
def commandOf (videos : List VideoFile) (bg : Bool) : List String :=
  if strategyOf videos bg = EncodeStrategy.streamCopy then
    ["-f", "concat", "-safe", "0", "-i", "filelist.txt", "-c", "copy", outputName videos]
  else
    inputTokens videos bg ++
      ["-filter_complex", filterComplexOf videos bg, "-map", "[v]", "-map", "[a]",
       "-c:v", "libx264", "-preset", "ultrafast", "-c:a", "aac",
       "-pix_fmt", "yuv420p", "-shortest", outputName videos]

/-- The complete pure planning result of `stitchVideos`: strategy, engine file
names, synthesized filter graph and assembled command. -/
structure StitchPlan where
  needsReencode : Bool
  hasTransitions : Bool
  strategy : EncodeStrategy
  inputNames : List String
  audioInputName : String
  outputName : String
  stages : List FilterStage
  filterComplex : String
  concatList : String
  command : List String
deriving DecidableEq, Repr

/-- The planning portion of `stitchVideos` (ffmpegService.ts:42-210): every
derived name, flag, graph and the argument vector, as a pure function of the
clip list and the background-audio request. -/
def stitchPlan (videos : List VideoFile) (bg : Bool) : StitchPlan :=
  { needsReencode := needsReencode videos bg
    hasTransitions := hasTransitions videos
    strategy := strategyOf videos bg
    inputNames := inputNames videos
    audioInputName := audioInputNameOf bg
    outputName := outputName videos
    stages := if strategyOf videos bg = EncodeStrategy.streamCopy then [] else filterStages videos bg
    filterComplex :=
      if strategyOf videos bg = EncodeStrategy.streamCopy then "" else filterComplexOf videos bg
    concatList :=
      if strategyOf videos bg = EncodeStrategy.streamCopy then concatListOf videos else ""
    command := commandOf videos bg }

/-- Success path: deletions attempted after a successful exec and read
(ffmpegService.ts:236-245): per-clip inputs, the background-audio input when
present, `filelist.txt` when `!needsReencode && !backgroundAudio`, and the
output file.  Each deletion is wrapped in `try {...} catch(e) {}`: the
attempt is recorded whether or not the engine-side deletion succeeds. -/
def tryDelete (deleteOk : String → Bool) (nm : String) : List String :=
  if deleteOk nm then [nm] else [nm]

/-- All deletion attempts of the success path, in source order. -/
def successDeletions (videos : List VideoFile) (bg : Bool) (deleteOk : String → Bool) :
    List String :=
  List.flatten ((inputNames videos).map (tryDelete deleteOk)) ++
    (if audioInputNameOf bg ≠ "" then tryDelete deleteOk (audioInputNameOf bg) else []) ++
    (if !needsReencode videos bg && !bg then tryDelete deleteOk "filelist.txt" else []) ++
    tryDelete deleteOk (outputName videos)

/-- Observable outcome of a `stitchVideos` run (ffmpegService.ts:212-254). -/
inductive StitchOutcome
  | ok (mimeType : String)
  | execFailed (reencode : Bool)
  | readFailed
  | stringDataFailed
deriving DecidableEq, Repr

/-- A `stitchVideos` run: its outcome plus every engine-side deletion it
attempted. -/
structure StitchRun where
  outcome : StitchOutcome
  deletionAttempts : List String
deriving DecidableEq, Repr

/-- The run behaviour of `stitchVideos` after planning (ffmpegService.ts:
212-254), with the engine's exec / read outcomes as parameters: a failing
exec rethrows (with the re-encode flag selecting the message) and a failing
read rethrows, in both cases before any cleanup; only after a successful
read are the intermediate files deleted (each failure swallowed), after
which string-typed data raises and binary data yields the result. -/
def stitchRun (videos : List VideoFile) (bg execOk readOk dataIsString : Bool)
    (deleteOk : String → Bool) : StitchRun :=
  if !execOk then
    { outcome := StitchOutcome.execFailed (needsReencode videos bg), deletionAttempts := [] }
  else if !readOk then
    { outcome := StitchOutcome.readFailed, deletionAttempts := [] }
  else if dataIsString then
    { outcome := StitchOutcome.stringDataFailed,
      deletionAttempts := successDeletions videos bg deleteOk }
  else
    { outcome := StitchOutcome.ok (mimeOf videos),
      deletionAttempts := successDeletions videos bg deleteOk }

/-- One engine `exec` call in `getPreviewFrame`: a numeric exit code, or the
`Buffer reallocation failed` log signature that the registered log callback
turns into a thrown `BUFFER_REALLOCATION_FAILED` error. -/
inductive ExecOutcome
  | exitCode (code : Nat)
  | bufferRealloc
deriving DecidableEq, Repr

/-- The errors `getPreviewFrame` can surface: the generic
`FFmpeg exited with code N` error rethrown verbatim, or the synthesized
`Preview generation failed due to video format limitations` error. -/
inductive PreviewError
  | execExit (code : Nat)
  | previewGenerationFailed
deriving DecidableEq, Repr

/-- A `getPreviewFrame` run: the surfaced result and every deletion attempt. -/
structure PreviewRun where
  result : Except PreviewError (List Nat)
  deletionAttempts : List String
deriving Repr

def previewInputName : String := "preview_input.mp4"

def previewOutputName : String := "preview_frame.jpg"

/-- `getPreviewFrame` (ffmpegService.ts:465-579) with the engine's two
possible `exec` invocations as parameters (`e1` the filtered attempt, `e2`
the filter-less fallback, consulted only after a buffer-reallocation
signature) and the frame bytes each successful attempt reads.  Exit code 0 on
the first attempt returns its bytes after deleting both intermediates; a
non-zero code throws, is not the buffer signature, so both intermediates get
cleanup attempts and the original error is rethrown; the buffer signature
triggers the fallback, which first deletes and rewrites the input, then
either returns the fallback bytes (deleting both intermediates) or — on any
fallback failure — throws the synthesized preview-generation error with no
further cleanup.  File writes and reads are modelled as succeeding. -/
def getPreviewFrame (e1 e2 : ExecOutcome) (frame1 frame2 : List Nat) : PreviewRun :=
  match e1 with
  | ExecOutcome.exitCode 0 =>
      { result := Except.ok frame1,
        deletionAttempts := [previewInputName, previewOutputName] }
  | ExecOutcome.exitCode code =>
      { result := Except.error (PreviewError.execExit code),
        deletionAttempts := [previewInputName, previewOutputName] }
  | ExecOutcome.bufferRealloc =>
      match e2 with
      | ExecOutcome.exitCode 0 =>
          { result := Except.ok frame2,
            deletionAttempts := [previewInputName, previewInputName, previewOutputName] }
      | _ =>
          { result := Except.error PreviewError.previewGenerationFailed,
            deletionAttempts := [previewInputName] }

/-- Replaces the `transitionToNext` field of the last clip (identity on the
empty job); used to state which parts of the plan consult it. -/
def setLastTransition : List VideoFile → Option Transition → List VideoFile
  | [], _ => []
  | [v], tr => [{ v with transition := tr }]
  | v :: w :: vs, tr => v :: setLastTransition (w :: vs) tr

/-- Replaces the `transitionToNext` field of clip `i`. -/
def setTransAt : List VideoFile → Nat → Option Transition → List VideoFile
  | [], _, _ => []
  | v :: vs, 0, tr => { v with transition := tr } :: vs
  | v :: vs, n+1, tr => v :: setTransAt vs n tr

/-- The part of an optional transition the planner can observe: an omitted
transition and a `NONE` transition of any duration collapse to the same
value, every other transition is kept as is. -/
def transObs : Option Transition → Option Transition
  | some t => if t.type = TransitionType.none then Option.none else some t
  | Option.none => Option.none

/-- Normalizes a clip to its planner-observable part. -/
def normClip (v : VideoFile) : VideoFile :=
  { v with transition := transObs v.transition }

/-- Clip hypothesis of the clamping discussion: nonnegative duration and a
configured transition duration not exceeding the clip's own duration. -/
def GoodClip (v : VideoFile) : Prop :=
  0 ≤ v.duration ∧ clipTransitionDuration v ≤ v.duration

instance (v : VideoFile) : Decidable (GoodClip v) := by
  unfold GoodClip
  infer_instance

/-- Per-junction audio stages (audio concat chains and audio cross-fades). -/
def isAudioStage : FilterStage → Bool
  | FilterStage.simpleConcatA _ => true
  | FilterStage.concatA _ _ => true
  | FilterStage.acrossfade _ _ _ => true
  | FilterStage.finalA _ => true
  | _ => false

/-- Two-input video concat stages. -/
def isConcatV : FilterStage → Bool
  | FilterStage.concatV _ _ => true
  | _ => false

/-- Concrete clip builder for the example jobs below. -/
def mkClip (w h : Nat) (mt : String) (d : ℚ) (tr : Option Transition) : VideoFile :=
  { fileName := "a.mp4", fileType := mt, duration := d, width := w, height := h,
    transition := tr }

/-- A one-second fade. -/
def fade1 : Option Transition :=
  some { type := TransitionType.fade, duration := 1 }

/-- Three 1920×1080 mp4 clips of 5 s, each fading 1 s into the next. -/
def demoFadeChain : List VideoFile :=
  [mkClip 1920 1080 "video/mp4" 5 fade1, mkClip 1920 1080 "video/mp4" 5 fade1,
    mkClip 1920 1080 "video/mp4" 5 fade1]

/-- Three homogeneous 1920×1080 mp4 clips, no transitions. -/
def homogeneousClips : List VideoFile :=
  [mkClip 1920 1080 "video/mp4" 5 Option.none, mkClip 1920 1080 "video/mp4" 5 Option.none,
    mkClip 1920 1080 "video/mp4" 5 Option.none]

/-- Two clips that agree with the first clip in width, height and (empty)
mime type. -/
def emptyMimeClips : List VideoFile :=
  [mkClip 640 480 "" 1 Option.none, mkClip 640 480 "" 1 Option.none]

/-- A 1 s clip configured with a 3 s fade into a 5 s clip. -/
def overlongFadeClips : List VideoFile :=
  [mkClip 1920 1080 "video/mp4" 1 (some { type := TransitionType.fade, duration := 3 }),
    mkClip 1920 1080 "video/mp4" 5 Option.none]

/-- A zero-duration clip configured with a 1 s fade into a 5 s clip. -/
def zeroDurationClips : List VideoFile :=
  [mkClip 1920 1080 "video/mp4" 0 fade1, mkClip 1920 1080 "video/mp4" 5 Option.none]

/-- Two homogeneous clips whose last clip carries a fade. -/
def lastFadeClips : List VideoFile :=
  [mkClip 1920 1080 "video/mp4" 5 Option.none, mkClip 1920 1080 "video/mp4" 5 fade1]

/-- Two clips of different resolutions. -/
def mixedResolutionClips : List VideoFile :=
  [mkClip 1920 1080 "video/mp4" 5 Option.none, mkClip 1280 720 "video/mp4" 5 Option.none]

/-- An always-succeeding engine-side deletion. -/
def allDeleteOk : String → Bool :=
  fun _ => true

/-! ### Helper lemmas about the junction loop -/

theorem junctionStep_active (bg : Bool) (st : JunctionState) (v1 : VideoFile) (t : Transition)
    (h : v1.transition = some t) (ht : t.type ≠ TransitionType.none) (hd : 0 < t.duration) :
    junctionStep bg st v1 =
      { idx := st.idx + 1
        currentV := s!"[vtemp{st.idx}]"
        currentA := if bg then st.currentA else s!"[atemp{st.idx}]"
        currentOffset := st.currentOffset + v1.duration - t.duration
        stages := st.stages ++
          [FilterStage.xfade st.currentV st.idx (ffmpegTransName t.type) t.duration
            (st.currentOffset + v1.duration - t.duration)] ++
          (if bg then [] else [FilterStage.acrossfade st.currentA st.idx t.duration]) } := by
  have hct : clipTrans v1 = t := by simp [clipTrans, h]
  have hcd : clipTransitionDuration v1 = t.duration := by
    simp [clipTransitionDuration, hct, ht]
  simp only [junctionStep, hct, hcd]
  rw [if_neg]
  push_neg
  exact ⟨ht, hd⟩

theorem junctionStep_plain (bg : Bool) (st : JunctionState) (v1 : VideoFile)
    (h : clipTransitionDuration v1 ≤ 0) :
    junctionStep bg st v1 =
      { idx := st.idx + 1
        currentV := s!"[vtemp{st.idx}]"
        currentA := if bg then st.currentA else s!"[atemp{st.idx}]"
        currentOffset := st.currentOffset + v1.duration
        stages := st.stages ++ [FilterStage.concatV st.currentV st.idx] ++
          (if bg then [] else [FilterStage.concatA st.currentA st.idx]) } := by
  by_cases hn : (clipTrans v1).type = TransitionType.none
  · simp only [junctionStep]
    rw [if_pos (Or.inl hn)]
  · have hd : clipTransitionDuration v1 ≤ 0 := h
    simp only [junctionStep]
    rw [if_pos (Or.inr hd)]

theorem activeOfNotPlain (v1 : VideoFile) (h : ¬ clipTransitionDuration v1 ≤ 0) :
    ∃ t, v1.transition = some t ∧ t.type ≠ TransitionType.none ∧ 0 < t.duration ∧
      clipTransitionDuration v1 = t.duration := by
  cases hv : v1.transition with
  | none =>
      exfalso
      apply h
      simp [clipTransitionDuration, clipTrans, hv]
  | some t =>
      have hct : clipTrans v1 = t := by simp [clipTrans, hv]
      by_cases hn : t.type = TransitionType.none
      · exfalso
        apply h
        simp [clipTransitionDuration, hct, hn]
      · have hcd : clipTransitionDuration v1 = t.duration := by
          simp [clipTransitionDuration, hct, hn]
        refine ⟨t, rfl, hn, ?_, hcd⟩
        rw [hcd] at h
        linarith [not_le.mp h]

theorem stageOffset_concatAux (bg : Bool) (c : String) (i : Nat) :
    ((if bg then [] else [FilterStage.concatA c i]) : List FilterStage).filterMap stageOffset
      = [] := by
  cases bg <;> simp [stageOffset]

theorem stageOffset_acrossAux (bg : Bool) (c : String) (i : Nat) (d : ℚ) :
    ((if bg then [] else [FilterStage.acrossfade c i d]) : List FilterStage).filterMap stageOffset
      = [] := by
  cases bg <;> simp [stageOffset]

theorem stageOffset_tailAux (bg : Bool) (n : Nat) (c : String) :
    ((if bg then [FilterStage.bgAudioNull n] else [FilterStage.finalA c]) :
      List FilterStage).filterMap stageOffset = [] := by
  cases bg <;> simp [stageOffset]

theorem stageOffset_simpleTailAux (bg : Bool) (n : Nat) :
    ((if bg then [FilterStage.bgAudioNull n] else [FilterStage.simpleConcatA n]) :
      List FilterStage).filterMap stageOffset = [] := by
  cases bg <;> simp [stageOffset]

theorem scaleStages_offsets (videos : List VideoFile) :
    (scaleStages videos).filterMap stageOffset = [] := by
  simp [scaleStages, List.filterMap_map, stageOffset, Function.comp]

theorem xfadeOffsets_eq (videos : List VideoFile) (bg : Bool) :
    xfadeOffsets videos bg =
      if hasTransitions videos then
        (runJunctions videos bg).stages.filterMap stageOffset
      else [] := by
  unfold xfadeOffsets filterStages
  by_cases h : hasTransitions videos = true
  · simp only [h, if_true]
    simp [List.filterMap_append, scaleStages_offsets, stageOffset, stageOffset_tailAux]
  · simp only [Bool.not_eq_true] at h
    simp only [h]
    simp [List.filterMap_append, scaleStages_offsets, stageOffset, stageOffset_simpleTailAux]

theorem junction_offsets_invariant (bg : Bool) (l : List VideoFile) (st : JunctionState)
    (h0 : 0 ≤ st.currentOffset)
    (hst : ∀ o ∈ st.stages.filterMap stageOffset, 0 ≤ o)
    (hl : ∀ v ∈ l, GoodClip v) :
    0 ≤ (l.foldl (junctionStep bg) st).currentOffset ∧
      ∀ o ∈ (l.foldl (junctionStep bg) st).stages.filterMap stageOffset, 0 ≤ o := by
  induction l generalizing st with
  | nil => exact ⟨h0, hst⟩
  | cons v vs ih =>
      have hv : GoodClip v := hl v (List.mem_cons_self _ _)
      have hrest : ∀ w ∈ vs, GoodClip w := fun w hw => hl w (List.mem_cons_of_mem _ hw)
      simp only [List.foldl_cons]
      by_cases hc : clipTransitionDuration v ≤ 0
      · rw [junctionStep_plain bg st v hc]
        refine ih _ ?_ ?_ hrest
        · dsimp only
          linarith [hv.1]
        · dsimp only
          intro o ho
          apply hst
          simpa [List.filterMap_append, stageOffset, stageOffset_concatAux bg] using ho
      · obtain ⟨t, hvt, htn, htd, hcd⟩ := activeOfNotPlain v hc
        have hdur : t.duration ≤ v.duration := by
          have := hv.2
          rwa [hcd] at this
        rw [junctionStep_active bg st v t hvt htn htd]
        refine ih _ ?_ ?_ hrest
        · dsimp only
          linarith
        · dsimp only
          intro o ho
          simp only [List.filterMap_append, List.mem_append,
            stageOffset_acrossAux bg] at ho
          rcases ho with (ho | ho) | ho
          · exact hst o ho
          · simp only [List.filterMap_cons, stageOffset, List.filterMap_nil] at ho
            simp only [List.mem_singleton] at ho
            subst ho
            linarith
          · simp at ho

/-! ### Claim theorems -/

/-- C2: on the FilterGraph path the cross-fade at a junction is placed at
`offset = currentOffset + duration(clip_i) - transitionDuration`, with
`currentOffset` starting at 0, set to that offset after a cross-fade junction
and advanced by `duration(clip_i)` after a plain-concat junction; concretely,
three 5 s clips joined by 1 s fades yield the xfade offsets [4, 8]. -/
theorem xfade_offset_accumulation :
    initialJunctionState.currentOffset = 0 ∧
    (∀ (bg : Bool) (st : JunctionState) (v1 : VideoFile) (t : Transition),
      v1.transition = some t → t.type ≠ TransitionType.none → 0 < t.duration →
        (junctionStep bg st v1).currentOffset = st.currentOffset + v1.duration - t.duration ∧
        (junctionStep bg st v1).stages.filterMap stageOffset =
          st.stages.filterMap stageOffset ++
            [st.currentOffset + v1.duration - t.duration]) ∧
    (∀ (bg : Bool) (st : JunctionState) (v1 : VideoFile),
      clipTransitionDuration v1 ≤ 0 →
        (junctionStep bg st v1).currentOffset = st.currentOffset + v1.duration) ∧
    xfadeOffsets demoFadeChain false = [4, 8] := by
  refine ⟨rfl, ?_, ?_, ?_⟩
  · intro bg st v1 t h ht hd
    rw [junctionStep_active bg st v1 t h ht hd]
    refine ⟨rfl, ?_⟩
    simp [List.filterMap_append, stageOffset, stageOffset_acrossAux bg]
  · intro bg st v1 h
    rw [junctionStep_plain bg st v1 h]
  · norm_num +decide [xfadeOffsets, filterStages, runJunctions, junctionStep,
      initialJunctionState, demoFadeChain, mkClip, fade1, hasTransitions, clipTrans,
      clipTransitionDuration, scaleStages, stageOffset, List.filterMap]

/-- Witness for C2: the cross-fade formula applied at the first junction of
the demo chain gives offset `0 + 5 - 1`. -/
theorem xfade_offset_accumulation_witness :
    (junctionStep false initialJunctionState
        (mkClip 1920 1080 "video/mp4" 5 fade1)).currentOffset =
      initialJunctionState.currentOffset +
        (mkClip 1920 1080 "video/mp4" 5 fade1).duration - 1 :=
  (xfade_offset_accumulation.2.1 false initialJunctionState
    (mkClip 1920 1080 "video/mp4" 5 fade1) { type := TransitionType.fade, duration := 1 }
    rfl (by decide) (by norm_num)).1

/-- C3 (amended): the synthesizer does not clamp the transition duration —
the emitted offset is `currentOffset + duration(clip_i) - transitionDuration`
unconditionally, and drops below `currentOffset` (even below zero) when a
transition lasts longer than its leading clip.  When every non-final clip has
nonnegative duration and a transition duration not exceeding its own
duration, every emitted offset is nonnegative and the running offset stays
nonnegative. -/
theorem xfade_offsets_clamped (videos : List VideoFile) (bg : Bool)
    (h : ∀ v ∈ videos.dropLast, GoodClip v) :
    (∀ o ∈ xfadeOffsets videos bg, 0 ≤ o) ∧
      0 ≤ (runJunctions videos bg).currentOffset := by
  have hinv := junction_offsets_invariant bg videos.dropLast initialJunctionState
    (by norm_num [initialJunctionState]) (by simp [initialJunctionState]) h
  refine ⟨?_, hinv.1⟩
  intro o ho
  rw [xfadeOffsets_eq] at ho
  by_cases ht : hasTransitions videos = true
  · rw [if_pos ht] at ho
    exact hinv.2 o ho
  · simp only [Bool.not_eq_true] at ht
    rw [ht] at ho
    simp at ho

/-- Witness for C3 (amended): the demo fade chain satisfies the duration
bounds, so its running offset ends nonnegative. -/
theorem xfade_offsets_clamped_witness :
    0 ≤ (runJunctions demoFadeChain false).currentOffset :=
  (xfade_offsets_clamped demoFadeChain false (by
    intro v hv
    fin_cases hv <;>
      constructor <;>
        norm_num +decide [mkClip, fade1, clipTransitionDuration, clipTrans])).2

/-- Counterexample for C3 as stated: a 3 s fade configured on a 1 s clip is
not clamped — the emitted xfade offset is −2, below the running
`currentOffset` of 0 and negative. -/
theorem xfade_offsets_clamped_counterexample :
    xfadeOffsets overlongFadeClips false = [-2] ∧ ((-2 : ℚ) < 0) := by
  constructor
  · norm_num +decide [xfadeOffsets, filterStages, runJunctions, junctionStep,
      initialJunctionState, overlongFadeClips, mkClip, hasTransitions, clipTrans,
      clipTransitionDuration, scaleStages, stageOffset, List.filterMap]
  · norm_num

/-- C4 (amended): a junction whose leading clip has zero duration but a
positive-duration non-NONE transition is NOT degraded to a plain concat; the
synthesizer still emits a cross-fade, at offset
`currentOffset - transitionDuration`, and reports no error. -/
theorem zero_duration_junction_xfade (bg : Bool) (st : JunctionState) (v1 : VideoFile)
    (t : Transition) (h0 : v1.duration = 0) (h : v1.transition = some t)
    (ht : t.type ≠ TransitionType.none) (hd : 0 < t.duration) :
    (junctionStep bg st v1).stages = st.stages ++
      [FilterStage.xfade st.currentV st.idx (ffmpegTransName t.type) t.duration
        (st.currentOffset - t.duration)] ++
      (if bg then [] else [FilterStage.acrossfade st.currentA st.idx t.duration]) := by
  rw [junctionStep_active bg st v1 t h ht hd]
  simp [h0]

/-- Witness for C4 (amended): the zero-duration example emits an xfade at
offset `0 - 1`. -/
theorem zero_duration_junction_xfade_witness :
    (junctionStep false initialJunctionState
        (mkClip 1920 1080 "video/mp4" 0 fade1)).stages =
      initialJunctionState.stages ++
        [FilterStage.xfade initialJunctionState.currentV initialJunctionState.idx
          (ffmpegTransName TransitionType.fade) 1 (initialJunctionState.currentOffset - 1)] ++
        [FilterStage.acrossfade initialJunctionState.currentA initialJunctionState.idx 1] :=
  zero_duration_junction_xfade false initialJunctionState
    (mkClip 1920 1080 "video/mp4" 0 fade1) { type := TransitionType.fade, duration := 1 }
    rfl rfl (by decide) (by norm_num)

/-- Counterexample for C4 as stated: with a zero-duration leading clip and a
1 s fade, the plan contains an xfade at the invalid offset −1 and no plain
video concat stage at all. -/
theorem zero_duration_junction_counterexample :
    xfadeOffsets zeroDurationClips false = [-1] ∧
      (filterStages zeroDurationClips false).countP isConcatV = 0 := by
  constructor
  · norm_num +decide [xfadeOffsets, filterStages, runJunctions, junctionStep,
      initialJunctionState, zeroDurationClips, mkClip, fade1, hasTransitions, clipTrans,
      clipTransitionDuration, scaleStages, stageOffset, List.filterMap]
  · norm_num +decide [filterStages, runJunctions, junctionStep, initialJunctionState,
      zeroDurationClips, mkClip, fade1, hasTransitions, clipTrans, clipTransitionDuration,
      scaleStages, isConcatV, List.countP, List.countP.go]

/-- C7: in the assembled argument vector `slidelt` and `slidert` serialize to
`slideleft` and `slideright`; every other transition kind serializes
unchanged as the lowercased enum member name. -/
theorem transition_name_mapping :
    ffmpegTransName TransitionType.slidelt = "slideleft" ∧
    ffmpegTransName TransitionType.slidert = "slideright" ∧
    ∀ t : TransitionType, t ≠ TransitionType.slidelt → t ≠ TransitionType.slidert →
      ffmpegTransName t = lowerString (TransitionType.enumName t) := by
  refine ⟨by decide, by decide, ?_⟩
  intro t h1 h2
  cases t <;> first | exact absurd rfl h1 | exact absurd rfl h2 | decide

/-- Witness for C7: `fade` passes through as the lowercased enum name. -/
theorem transition_name_mapping_witness :
    ffmpegTransName TransitionType.fade =
      lowerString (TransitionType.enumName TransitionType.fade) :=
  transition_name_mapping.2.2 TransitionType.fade (by decide) (by decide)

theorem junction_bg_stages (l : List VideoFile) (st : JunctionState) :
    ∀ s ∈ (l.foldl (junctionStep true) st).stages,
      s ∈ st.stages ∨ (∃ c i, s = FilterStage.concatV c i) ∨
        ∃ c i nm d o, s = FilterStage.xfade c i nm d o := by
  induction l generalizing st with
  | nil => exact fun s hs => Or.inl hs
  | cons v vs ih =>
      intro s hs
      simp only [List.foldl_cons] at hs
      rcases ih (junctionStep true st v) s hs with hmem | hrest
      · by_cases hc : clipTransitionDuration v ≤ 0
        · rw [junctionStep_plain true st v hc] at hmem
          simp only [List.mem_append] at hmem
          rcases hmem with (hmem | hmem) | hmem
          · exact Or.inl hmem
          · simp only [List.mem_singleton] at hmem
            exact Or.inr (Or.inl ⟨st.currentV, st.idx, hmem⟩)
          · simp at hmem
        · obtain ⟨t, hvt, htn, htd, _⟩ := activeOfNotPlain v hc
          rw [junctionStep_active true st v t hvt htn htd] at hmem
          simp only [List.mem_append] at hmem
          rcases hmem with (hmem | hmem) | hmem
          · exact Or.inl hmem
          · simp only [List.mem_singleton] at hmem
            exact Or.inr (Or.inr ⟨st.currentV, st.idx, ffmpegTransName t.type, t.duration,
              st.currentOffset + v.duration - t.duration, hmem⟩)
          · simp at hmem
      · exact Or.inr hrest

theorem filterStages_bg_split (videos : List VideoFile) :
    (hasTransitions videos = true →
      filterStages videos true = scaleStages videos ++ (runJunctions videos true).stages ++
        [FilterStage.finalV (runJunctions videos true).currentV,
          FilterStage.bgAudioNull videos.length]) ∧
    (hasTransitions videos = false →
      filterStages videos true = scaleStages videos ++
        [FilterStage.simpleConcatV videos.length,
          FilterStage.bgAudioNull videos.length]) := by
  constructor <;> intro h <;> simp [filterStages, h]

theorem scaleStages_shape (videos : List VideoFile) :
    ∀ s ∈ scaleStages videos, ∃ i, s = FilterStage.scalePad i (targetW videos) (targetH videos) := by
  intro s hs
  rw [scaleStages] at hs
  obtain ⟨i, -, h⟩ := List.mem_map.mp hs
  exact ⟨i, h.symm⟩

theorem runJunctions_bg_shape (videos : List VideoFile) :
    ∀ s ∈ (runJunctions videos true).stages,
      (∃ c i, s = FilterStage.concatV c i) ∨
        ∃ c i nm d o, s = FilterStage.xfade c i nm d o := by
  intro s hs
  rcases junction_bg_stages videos.dropLast initialJunctionState s hs with h0 | h1 | h2
  · simp [initialJunctionState] at h0
  · exact Or.inl h1
  · exact Or.inr h2

/-- C5: when background audio is requested the strategy is always
`FilterGraph`, the synthesized plan contains no per-junction or chained audio
stage at all, and exactly one stage maps the background-audio input (input
index = number of clips) to the output audio channel. -/
theorem background_audio_overrides (videos : List VideoFile) :
    strategyOf videos true = EncodeStrategy.filterGraph ∧
    (filterStages videos true).countP isAudioStage = 0 ∧
    (filterStages videos true).count (FilterStage.bgAudioNull videos.length) = 1 := by
  refine ⟨by simp [strategyOf, needsReencode], ?_, ?_⟩
  · rw [List.countP_eq_zero]
    intro s hs
    cases hht : hasTransitions videos with
    | true =>
        rw [(filterStages_bg_split videos).1 hht] at hs
        simp only [List.mem_append] at hs
        rcases hs with (hs | hs) | hs
        · obtain ⟨i, rfl⟩ := scaleStages_shape videos s hs
          simp [isAudioStage]
        · rcases runJunctions_bg_shape videos s hs with ⟨c, i, rfl⟩ | ⟨c, i, nm, d, o, rfl⟩
          · simp [isAudioStage]
          · simp [isAudioStage]
        · simp only [List.mem_cons, List.mem_singleton, List.not_mem_nil] at hs
          rcases hs with rfl | (rfl | hs)
          · simp [isAudioStage]
          · simp [isAudioStage]
          · simp at hs
    | false =>
        rw [(filterStages_bg_split videos).2 hht] at hs
        simp only [List.mem_append] at hs
        rcases hs with hs | hs
        · obtain ⟨i, rfl⟩ := scaleStages_shape videos s hs
          simp [isAudioStage]
        · simp only [List.mem_cons, List.mem_singleton, List.not_mem_nil] at hs
          rcases hs with rfl | (rfl | hs)
          · simp [isAudioStage]
          · simp [isAudioStage]
          · simp at hs
  · have h1 : (scaleStages videos).count (FilterStage.bgAudioNull videos.length) = 0 := by
      rw [List.count_eq_zero]
      intro hmem
      obtain ⟨i, h⟩ := scaleStages_shape videos _ hmem
      exact FilterStage.noConfusion h
    cases hht : hasTransitions videos with
    | true =>
        rw [(filterStages_bg_split videos).1 hht]
        have h2 : (runJunctions videos true).stages.count
            (FilterStage.bgAudioNull videos.length) = 0 := by
          rw [List.count_eq_zero]
          intro hmem
          rcases runJunctions_bg_shape videos _ hmem with ⟨c, i, h⟩ | ⟨c, i, nm, d, o, h⟩
          · exact FilterStage.noConfusion h
          · exact FilterStage.noConfusion h
        rw [List.count_append, List.count_append, h1, h2]
        simp [List.count_cons]
    | false =>
        rw [(filterStages_bg_split videos).2 hht]
        rw [List.count_append, h1]
        simp [List.count_cons]

/-- C6 (amended): if the first invocation fails with the buffer-reallocation
signature and the filter-less retry succeeds, the retry's bytes are returned
with no error; if the retry also fails (any fallback outcome other than exit
code 0) the single synthesized preview-generation error is surfaced, with a
deletion attempt only for the input file; any other error (a non-zero exit
code without the buffer signature) triggers cleanup attempts for both
intermediate files and is rethrown unchanged rather than converted. -/
theorem preview_fallback (e2 : ExecOutcome) (f1 f2 : List Nat) (code : Nat) :
    (getPreviewFrame ExecOutcome.bufferRealloc (ExecOutcome.exitCode 0) f1 f2).result =
      Except.ok f2 ∧
    (e2 ≠ ExecOutcome.exitCode 0 →
      getPreviewFrame ExecOutcome.bufferRealloc e2 f1 f2 =
        { result := Except.error PreviewError.previewGenerationFailed,
          deletionAttempts := [previewInputName] }) ∧
    (code ≠ 0 →
      getPreviewFrame (ExecOutcome.exitCode code) e2 f1 f2 =
        { result := Except.error (PreviewError.execExit code),
          deletionAttempts := [previewInputName, previewOutputName] }) := by
  refine ⟨rfl, ?_, ?_⟩
  · intro h
    cases e2 with
    | exitCode c =>
        cases c with
        | zero => exact absurd rfl h
        | succ n => rfl
    | bufferRealloc => rfl
  · intro h
    cases code with
    | zero => exact absurd rfl h
    | succ n => rfl

/-- Witness for C6 (amended): a buffer-reallocation failure followed by a
failing retry surfaces the synthesized error, and a plain exit-code-1 failure
surfaces the original error after cleaning both files. -/
theorem preview_fallback_witness :
    getPreviewFrame ExecOutcome.bufferRealloc (ExecOutcome.exitCode 1) [7] [8] =
      { result := Except.error PreviewError.previewGenerationFailed,
        deletionAttempts := [previewInputName] } ∧
    getPreviewFrame (ExecOutcome.exitCode 1) (ExecOutcome.exitCode 0) [7] [8] =
      { result := Except.error (PreviewError.execExit 1),
        deletionAttempts := [previewInputName, previewOutputName] } :=
  ⟨(preview_fallback (ExecOutcome.exitCode 1) [7] [8] 1).2.1 (by decide),
    (preview_fallback (ExecOutcome.exitCode 1) [7] [8] 1).2.2 (by decide)⟩

/-- Counterexample for C6 as stated: an engine failure that is not the
buffer-reallocation signature (exit code 1 on the first call) is surfaced as
the original execution error, not as the synthesized
`PreviewGenerationFailed` error the claim requires. -/
theorem preview_fallback_counterexample :
    (getPreviewFrame (ExecOutcome.exitCode 1) (ExecOutcome.exitCode 0) [7] [8]).result =
      Except.error (PreviewError.execExit 1) ∧
    PreviewError.execExit 1 ≠ PreviewError.previewGenerationFailed :=
  ⟨rfl, by decide⟩

/-- C9 (amended): `stitchVideos` attempts its cleanup deletions (per-clip
inputs, background-audio input when present, the concat list file on the
fast path, and the output file) only after a successful engine execution and
output read; an execution or read failure propagates with no deletion
attempt at all, and the outcome is unaffected by which individual deletions
fail (each failure is swallowed). -/
theorem stitch_cleanup (videos : List VideoFile) (bg ds : Bool)
    (d1 d2 : String → Bool) :
    (stitchRun videos bg false true ds d1).deletionAttempts = [] ∧
    (stitchRun videos bg false true ds d1).outcome =
      StitchOutcome.execFailed (needsReencode videos bg) ∧
    (stitchRun videos bg true false ds d1).deletionAttempts = [] ∧
    (stitchRun videos bg true false ds d1).outcome = StitchOutcome.readFailed ∧
    (stitchRun videos bg true true ds d1).deletionAttempts =
      successDeletions videos bg d1 ∧
    stitchRun videos bg true true ds d1 = stitchRun videos bg true true ds d2 := by
  have htry : ∀ nm, tryDelete d1 nm = tryDelete d2 nm := by
    intro nm
    unfold tryDelete
    by_cases h1 : d1 nm = true <;> by_cases h2 : d2 nm = true <;> simp [h1, h2]
  have hdel : successDeletions videos bg d1 = successDeletions videos bg d2 := by
    unfold successDeletions
    rw [funext htry]
  refine ⟨rfl, rfl, rfl, rfl, ?_, ?_⟩
  · cases ds <;> rfl
  · cases ds <;> simp [stitchRun, hdel]

/-- Counterexample for C9 as stated: on the engine-execution-failure exit
path no deletion is attempted at all, although the success path of the very
same job attempts a nonempty list of deletions. -/
theorem stitch_cleanup_counterexample :
    (stitchRun homogeneousClips false false true false allDeleteOk).deletionAttempts = [] ∧
    (stitchRun homogeneousClips false true true false allDeleteOk).deletionAttempts ≠ [] := by
  constructor
  · rfl
  · show successDeletions homogeneousClips false allDeleteOk ≠ []
    unfold successDeletions tryDelete
    simp

theorem mismatch_any_iff (videos : List VideoFile) :
    (videos.any fun v =>
      (v.width != targetW videos) || (v.height != targetH videos) ||
        (v.fileType != mimeOf videos)) = true ↔
      ∃ v ∈ videos, v.width ≠ targetW videos ∨ v.height ≠ targetH videos ∨
        v.fileType ≠ mimeOf videos := by
  rw [List.any_eq_true]
  constructor
  · rintro ⟨v, hv, hb⟩
    refine ⟨v, hv, ?_⟩
    simp only [Bool.or_eq_true, bne_iff_ne, ne_eq] at hb
    tauto
  · rintro ⟨v, hv, hp⟩
    refine ⟨v, hv, ?_⟩
    simp only [Bool.or_eq_true, bne_iff_ne, ne_eq]
    tauto

theorem hasTransitions_iff (videos : List VideoFile) :
    hasTransitions videos = true ↔
      ∃ v ∈ videos, ∃ t, v.transition = some t ∧ t.type ≠ TransitionType.none := by
  unfold hasTransitions
  rw [List.any_eq_true]
  constructor
  · rintro ⟨v, hv, hb⟩
    refine ⟨v, hv, ?_⟩
    cases hvt : v.transition with
    | none =>
        rw [hvt] at hb
        simp at hb
    | some t =>
        rw [hvt] at hb
        simp only [bne_iff_ne, ne_eq] at hb
        exact ⟨t, rfl, hb⟩
  · rintro ⟨v, hv, t, hvt, htn⟩
    refine ⟨v, hv, ?_⟩
    rw [hvt]
    simpa [bne_iff_ne] using htn

theorem strategyOf_filterGraph_iff (videos : List VideoFile) (bg : Bool) :
    strategyOf videos bg = EncodeStrategy.filterGraph ↔
      (needsReencode videos bg = true ∨ hasTransitions videos = true ∨ bg = true) := by
  unfold strategyOf
  by_cases hc : (!needsReencode videos bg && !hasTransitions videos && !bg) = true
  · rw [if_pos hc]
    simp only [Bool.and_eq_true, Bool.not_eq_true'] at hc
    constructor
    · intro hf
      exact EncodeStrategy.noConfusion hf
    · rintro (h | h | h) <;> simp_all
  · rw [if_neg hc]
    simp only [Bool.and_eq_true, Bool.not_eq_true', not_and_or, Bool.not_eq_false] at hc
    constructor
    · intro _
      tauto
    · intro _
      rfl

/-- C1 (amended): with at least 2 clips, `stitchVideos` takes the
FilterGraph path iff some clip's width or height differs from the first
clip's, or some clip's mime type differs from the *defaulted* mime (the
first clip's mime type, with an empty string replaced by `video/mp4`), or
some clip carries a non-NONE transition, or background audio is requested;
otherwise it takes the StreamCopy path. -/
theorem strategy_decision_rule (videos : List VideoFile) (bg : Bool)
    (_h : 2 ≤ videos.length) :
    strategyOf videos bg = EncodeStrategy.filterGraph ↔
      ((∃ v ∈ videos, v.width ≠ targetW videos ∨ v.height ≠ targetH videos ∨
          v.fileType ≠ mimeOf videos) ∨
        (∃ v ∈ videos, ∃ t, v.transition = some t ∧ t.type ≠ TransitionType.none) ∨
        bg = true) := by
  rw [strategyOf_filterGraph_iff]
  constructor
  · rintro (hnr | hht | hbg)
    · unfold needsReencode at hnr
      rw [Bool.or_eq_true] at hnr
      rcases hnr with hany | hbg
      · exact Or.inl ((mismatch_any_iff videos).mp hany)
      · exact Or.inr (Or.inr hbg)
    · exact Or.inr (Or.inl ((hasTransitions_iff videos).mp hht))
    · exact Or.inr (Or.inr hbg)
  · rintro (hm | ht | hbg)
    · refine Or.inl ?_
      unfold needsReencode
      rw [Bool.or_eq_true]
      exact Or.inl ((mismatch_any_iff videos).mpr hm)
    · exact Or.inr (Or.inl ((hasTransitions_iff videos).mpr ht))
    · exact Or.inr (Or.inr hbg)

/-- Witness for C1 (amended): a resolution mismatch forces the FilterGraph
path. -/
theorem strategy_decision_rule_witness :
    strategyOf mixedResolutionClips false = EncodeStrategy.filterGraph :=
  (strategy_decision_rule mixedResolutionClips false (by decide)).mpr
    (Or.inl ⟨mkClip 1280 720 "video/mp4" 5 Option.none, by decide, Or.inl (by decide)⟩)

/-- Counterexample for C1 as stated: two clips that agree with the first
clip in width, height and (empty) mime type, with no transitions and no
background audio, are still sent down the FilterGraph path, because the
source compares every clip's mime type against the *defaulted* mime
`video/mp4` rather than against the first clip's own (empty) mime type. -/
theorem strategy_decision_rule_counterexample :
    (∀ v ∈ emptyMimeClips,
      v.width = (firstClip emptyMimeClips).width ∧
      v.height = (firstClip emptyMimeClips).height ∧
      v.fileType = (firstClip emptyMimeClips).fileType) ∧
    hasTransitions emptyMimeClips = false ∧
    strategyOf emptyMimeClips false = EncodeStrategy.filterGraph := by
  decide

theorem setLastTransition_cons_cons (v w : VideoFile) (vs : List VideoFile)
    (tr : Option Transition) :
    setLastTransition (v :: w :: vs) tr = v :: setLastTransition (w :: vs) tr :=
  rfl

theorem setLastTransition_cons_shape (w : VideoFile) (ws : List VideoFile)
    (tr : Option Transition) :
    ∃ y ys, setLastTransition (w :: ws) tr = y :: ys := by
  cases ws with
  | nil => exact ⟨_, _, rfl⟩
  | cons u us => exact ⟨w, _, rfl⟩

theorem setLastTransition_dropLast (l : List VideoFile) (tr : Option Transition) :
    (setLastTransition l tr).dropLast = l.dropLast := by
  induction l with
  | nil => rfl
  | cons v vs ih =>
      cases vs with
      | nil => rfl
      | cons w ws =>
          rw [setLastTransition_cons_cons]
          obtain ⟨y, ys, hy⟩ := setLastTransition_cons_shape w ws tr
          rw [hy, List.dropLast_cons₂, ← hy, ih, List.dropLast_cons₂]

theorem setLastTransition_length (l : List VideoFile) (tr : Option Transition) :
    (setLastTransition l tr).length = l.length := by
  induction l with
  | nil => rfl
  | cons v vs ih =>
      cases vs with
      | nil => rfl
      | cons w ws => simp [setLastTransition_cons_cons, ih]

theorem setLastTransition_firstClip (l : List VideoFile) (tr : Option Transition) :
    (firstClip (setLastTransition l tr)).fileName = (firstClip l).fileName ∧
    (firstClip (setLastTransition l tr)).fileType = (firstClip l).fileType ∧
    (firstClip (setLastTransition l tr)).width = (firstClip l).width ∧
    (firstClip (setLastTransition l tr)).height = (firstClip l).height := by
  cases l with
  | nil => exact ⟨rfl, rfl, rfl, rfl⟩
  | cons v vs =>
      cases vs with
      | nil => exact ⟨rfl, rfl, rfl, rfl⟩
      | cons w ws => exact ⟨rfl, rfl, rfl, rfl⟩

theorem setLastTransition_targetW (l : List VideoFile) (tr : Option Transition) :
    targetW (setLastTransition l tr) = targetW l :=
  (setLastTransition_firstClip l tr).2.2.1

theorem setLastTransition_targetH (l : List VideoFile) (tr : Option Transition) :
    targetH (setLastTransition l tr) = targetH l :=
  (setLastTransition_firstClip l tr).2.2.2

theorem setLastTransition_extOf (l : List VideoFile) (tr : Option Transition) :
    extOf (setLastTransition l tr) = extOf l := by
  unfold extOf
  rw [(setLastTransition_firstClip l tr).1]

theorem setLastTransition_mimeOf (l : List VideoFile) (tr : Option Transition) :
    mimeOf (setLastTransition l tr) = mimeOf l := by
  unfold mimeOf
  rw [(setLastTransition_firstClip l tr).2.1]

theorem setLastTransition_any (p : VideoFile → Bool)
    (hp : ∀ v tr2, p { v with transition := tr2 } = p v) (l : List VideoFile)
    (tr : Option Transition) :
    (setLastTransition l tr).any p = l.any p := by
  induction l with
  | nil => rfl
  | cons v vs ih =>
      cases vs with
      | nil => simp [setLastTransition, hp]
      | cons w ws => simp [setLastTransition_cons_cons, List.any_cons, ih]

theorem setLastTransition_needsReencode (l : List VideoFile) (tr : Option Transition)
    (bg : Bool) :
    needsReencode (setLastTransition l tr) bg = needsReencode l bg := by
  unfold needsReencode
  rw [setLastTransition_targetW, setLastTransition_targetH, setLastTransition_mimeOf,
    setLastTransition_any (fun v =>
      (v.width != targetW l) || (v.height != targetH l) || (v.fileType != mimeOf l))
      (fun v tr2 => rfl)]

theorem setLastTransition_strategyOf (l : List VideoFile) (tr : Option Transition)
    (bg : Bool) (h : hasTransitions (setLastTransition l tr) = hasTransitions l) :
    strategyOf (setLastTransition l tr) bg = strategyOf l bg := by
  unfold strategyOf
  rw [setLastTransition_needsReencode, h]

theorem setLastTransition_runJunctions (l : List VideoFile) (tr : Option Transition)
    (bg : Bool) :
    runJunctions (setLastTransition l tr) bg = runJunctions l bg := by
  unfold runJunctions
  rw [setLastTransition_dropLast]

theorem setLastTransition_scaleStages (l : List VideoFile) (tr : Option Transition) :
    scaleStages (setLastTransition l tr) = scaleStages l := by
  unfold scaleStages
  rw [setLastTransition_length, setLastTransition_targetW, setLastTransition_targetH]

theorem setLastTransition_filterStages (l : List VideoFile) (tr : Option Transition)
    (bg : Bool) (h : hasTransitions (setLastTransition l tr) = hasTransitions l) :
    filterStages (setLastTransition l tr) bg = filterStages l bg := by
  simp only [filterStages]
  rw [setLastTransition_length, h, setLastTransition_scaleStages,
    setLastTransition_runJunctions]

theorem stitchPlan_setLastTransition (l : List VideoFile) (tr : Option Transition)
    (bg : Bool) (h : hasTransitions (setLastTransition l tr) = hasTransitions l) :
    stitchPlan (setLastTransition l tr) bg = stitchPlan l bg := by
  have hin : inputNames (setLastTransition l tr) = inputNames l := by
    unfold inputNames
    rw [setLastTransition_length, setLastTransition_extOf]
  have hout : outputName (setLastTransition l tr) = outputName l := by
    unfold outputName
    rw [setLastTransition_extOf]
  have hfc : filterComplexOf (setLastTransition l tr) bg = filterComplexOf l bg := by
    unfold filterComplexOf
    rw [setLastTransition_filterStages l tr bg h]
  have hcl : concatListOf (setLastTransition l tr) = concatListOf l := by
    unfold concatListOf
    rw [hin]
  have hcmd : commandOf (setLastTransition l tr) bg = commandOf l bg := by
    unfold commandOf inputTokens
    rw [setLastTransition_strategyOf l tr bg h, hin, hfc, hout]
  unfold stitchPlan
  rw [setLastTransition_needsReencode, h, setLastTransition_strategyOf l tr bg h,
    hin, hout, setLastTransition_filterStages l tr bg h, hfc, hcl, hcmd]

/-- C8 (amended): the junction loop never consults the last clip's
transition (the synthesized junction chain is unchanged by any replacement
of it), and whenever the replacement leaves the `hasTransitions` scan
unchanged the entire plan — strategy, filter graph and argument vector — is
identical.  However, the `hasTransitions` scan itself reads every clip
including the last, so the chosen strategy can change with the last clip's
transition (see the counterexample). -/
theorem last_transition_consultation (l : List VideoFile) (tr : Option Transition)
    (bg : Bool) :
    runJunctions (setLastTransition l tr) bg = runJunctions l bg ∧
    (hasTransitions (setLastTransition l tr) = hasTransitions l →
      stitchPlan (setLastTransition l tr) bg = stitchPlan l bg) :=
  ⟨setLastTransition_runJunctions l tr bg, fun h => stitchPlan_setLastTransition l tr bg h⟩

/-- Witness for C8 (amended): replacing the demo chain's last transition by
an omitted one leaves the whole plan unchanged. -/
theorem last_transition_consultation_witness :
    stitchPlan (setLastTransition demoFadeChain Option.none) false =
      stitchPlan demoFadeChain false :=
  (last_transition_consultation demoFadeChain Option.none false).2 (by decide)

/-- Counterexample for C8 as stated: two homogeneous clips whose only
transition sits on the *last* clip take the FilterGraph path, while the same
job with that transition removed takes the StreamCopy path — the chosen
strategy does consult the last clip's transition. -/
theorem last_transition_consultation_counterexample :
    setLastTransition lastFadeClips Option.none =
      [mkClip 1920 1080 "video/mp4" 5 Option.none,
        mkClip 1920 1080 "video/mp4" 5 Option.none] ∧
    strategyOf lastFadeClips false = EncodeStrategy.filterGraph ∧
    strategyOf (setLastTransition lastFadeClips Option.none) false =
      EncodeStrategy.streamCopy :=
  ⟨rfl, by decide, by decide⟩

theorem foldl_fun_congr {α β : Type} (f g : β → α → β) (b : β) (l : List α)
    (h : ∀ s a, f s a = g s a) : l.foldl f b = l.foldl g b := by
  induction l generalizing b with
  | nil => rfl
  | cons x xs ih =>
      simp only [List.foldl_cons]
      rw [h]
      exact ih _

theorem junctionStep_normClip (bg : Bool) (st : JunctionState) (v : VideoFile) :
    junctionStep bg st (normClip v) = junctionStep bg st v := by
  cases hv : v.transition with
  | none =>
      have hnv : normClip v = v := by
        cases v
        simp only [normClip, transObs] at *
        simp_all
      rw [hnv]
  | some t =>
      by_cases hn : t.type = TransitionType.none
      · have hnv : normClip v = { v with transition := Option.none } := by
          simp [normClip, transObs, hv, hn]
        have h1 : clipTransitionDuration { v with transition := Option.none } = 0 := by
          simp [clipTransitionDuration, clipTrans]
        have h2 : clipTransitionDuration v = 0 := by
          simp [clipTransitionDuration, clipTrans, hv, hn]
        rw [hnv, junctionStep_plain bg st _ (by simp [h1]),
          junctionStep_plain bg st v (by simp [h2])]
      · have hnv : normClip v = v := by
          cases v
          simp only [normClip, transObs] at *
          simp_all
        rw [hnv]

theorem normClip_width (v : VideoFile) : (normClip v).width = v.width :=
  rfl

theorem normClip_height (v : VideoFile) : (normClip v).height = v.height :=
  rfl

theorem normClip_fileName (v : VideoFile) : (normClip v).fileName = v.fileName :=
  rfl

theorem normClip_fileType (v : VideoFile) : (normClip v).fileType = v.fileType :=
  rfl

theorem hasTransitions_map_normClip (l : List VideoFile) :
    hasTransitions (l.map normClip) = hasTransitions l := by
  unfold hasTransitions
  rw [List.any_map]
  refine congrArg l.any (funext fun v => ?_)
  cases hv : v.transition with
  | none => simp [normClip, transObs, hv, Function.comp]
  | some t =>
      by_cases hn : t.type = TransitionType.none
      · simp [normClip, transObs, hv, hn, Function.comp]
      · simp [normClip, transObs, hv, hn, Function.comp]

theorem firstClip_map_normClip (l : List VideoFile) :
    firstClip (l.map normClip) = normClip (firstClip l) := by
  cases l with
  | nil => rfl
  | cons v vs => rfl

theorem map_normClip_targetW (l : List VideoFile) :
    targetW (l.map normClip) = targetW l := by
  unfold targetW
  rw [firstClip_map_normClip, normClip_width]

theorem map_normClip_targetH (l : List VideoFile) :
    targetH (l.map normClip) = targetH l := by
  unfold targetH
  rw [firstClip_map_normClip, normClip_height]

theorem map_normClip_extOf (l : List VideoFile) :
    extOf (l.map normClip) = extOf l := by
  unfold extOf
  rw [firstClip_map_normClip, normClip_fileName]

theorem map_normClip_mimeOf (l : List VideoFile) :
    mimeOf (l.map normClip) = mimeOf l := by
  unfold mimeOf
  rw [firstClip_map_normClip, normClip_fileType]

theorem map_normClip_needsReencode (l : List VideoFile) (bg : Bool) :
    needsReencode (l.map normClip) bg = needsReencode l bg := by
  unfold needsReencode
  rw [map_normClip_targetW, map_normClip_targetH, map_normClip_mimeOf, List.any_map]
  refine congrArg (fun b => b || bg) (congrArg l.any (funext fun v => ?_))
  simp only [Function.comp_apply, normClip_width, normClip_height, normClip_fileType]

theorem map_normClip_strategyOf (l : List VideoFile) (bg : Bool) :
    strategyOf (l.map normClip) bg = strategyOf l bg := by
  unfold strategyOf
  rw [map_normClip_needsReencode, hasTransitions_map_normClip]

theorem map_normClip_runJunctions (l : List VideoFile) (bg : Bool) :
    runJunctions (l.map normClip) bg = runJunctions l bg := by
  unfold runJunctions
  rw [← List.map_dropLast, List.foldl_map]
  exact foldl_fun_congr _ _ _ _ (fun st v => junctionStep_normClip bg st v)

theorem map_normClip_scaleStages (l : List VideoFile) :
    scaleStages (l.map normClip) = scaleStages l := by
  unfold scaleStages
  rw [List.length_map, map_normClip_targetW, map_normClip_targetH]

theorem map_normClip_filterStages (l : List VideoFile) (bg : Bool) :
    filterStages (l.map normClip) bg = filterStages l bg := by
  simp only [filterStages]
  rw [List.length_map, hasTransitions_map_normClip, map_normClip_scaleStages,
    map_normClip_runJunctions]

theorem stitchPlan_map_normClip (l : List VideoFile) (bg : Bool) :
    stitchPlan (l.map normClip) bg = stitchPlan l bg := by
  have hin : inputNames (l.map normClip) = inputNames l := by
    unfold inputNames
    rw [List.length_map, map_normClip_extOf]
  have hout : outputName (l.map normClip) = outputName l := by
    unfold outputName
    rw [map_normClip_extOf]
  have hfc : filterComplexOf (l.map normClip) bg = filterComplexOf l bg := by
    unfold filterComplexOf
    rw [map_normClip_filterStages]
  have hcl : concatListOf (l.map normClip) = concatListOf l := by
    unfold concatListOf
    rw [hin]
  have hcmd : commandOf (l.map normClip) bg = commandOf l bg := by
    unfold commandOf inputTokens
    rw [map_normClip_strategyOf, hin, hfc, hout]
  unfold stitchPlan
  rw [map_normClip_needsReencode, hasTransitions_map_normClip, map_normClip_strategyOf,
    hin, hout, map_normClip_filterStages, hfc, hcl, hcmd]

theorem map_normClip_setTransAt (l : List VideoFile) (i : Nat) (d : ℚ) :
    (setTransAt l i (some { type := TransitionType.none, duration := d })).map normClip =
      (setTransAt l i Option.none).map normClip := by
  induction l generalizing i with
  | nil => rfl
  | cons v vs ih =>
      cases i with
      | zero =>
          have hhead :
              normClip { v with transition := some (Transition.mk TransitionType.none d) } =
                normClip { v with transition := Option.none } := by
            simp [normClip, transObs]
          simp only [setTransAt, List.map_cons, hhead]
      | succ n =>
          simp only [setTransAt, List.map_cons]
          rw [ih]

/-- C10: replacing an omitted transition on any clip by an explicit
`{ kind: NONE, duration: d }` for any duration `d` (or vice versa) leaves
the entire plan — strategy, file names, filter graph and argument vector —
unchanged, even though the data model distinguishes the two encodings. -/
theorem omitted_transition_equiv (l : List VideoFile) (i : Nat) (d : ℚ) (bg : Bool) :
    stitchPlan (setTransAt l i (some { type := TransitionType.none, duration := d })) bg =
      stitchPlan (setTransAt l i Option.none) bg := by
  rw [← stitchPlan_map_normClip, map_normClip_setTransAt, stitchPlan_map_normClip]

end VideoForge
